import Mathlib

/-!
Shallow embedding of `FreePointFinder.py` (ros-map-free-point-finder).

The Python program answers free-space queries against a 2D occupancy map:
`__init__` ingests a map descriptor and a grayscale image, `_m_to_px` /
`_px_to_m` convert between world (meter) and grid (pixel) coordinates,
`_is_free_px` tests a square robot footprint against the occupancy buffer
using numpy slicing, and `_closest_free_point_px` performs an expanding
radial spiral search.

Modelling conventions:
* Python / numpy float values are modelled as exact rationals (`ℚ`).  Every
  concrete input used in the theorems below only exercises arithmetic that
  is exact in IEEE-754 doubles as well (integers, dyadic rationals, and the
  trigonometric values at angle 0), so no conclusion depends on float
  rounding.
* `math.cos` / `math.sin` are modelled by an abstract structure `Trig`
  carrying any function bounded by 1 in magnitude, which is all the library
  guarantees that the proofs use.
* numpy basic slicing `a[i:j]` is total: indices are shifted by the length
  when negative and then clamped; this is embedded by `pyNorm` / `pySlice`.
* Python `int()` truncates toward zero (`pyInt`); Python 3 `round()` rounds
  half to even (`pyRound`).
* `raise` is modelled by `Except`: `PyError.unsupportedMapError` stands for
  the `Exception('Non-zero origin yaw is not supported.')` raised on line
  29-30, and `PyError.attributeError` for the `AttributeError` that
  evaluating the non-existent `math.max` (line 46) raises.
-/

namespace FPF

/-- Python slice-index normalization for a sequence of length `n`: a negative
index is shifted by `n`, then the result is clamped to `[0, n]`.  This is the
semantics of numpy/Python basic slicing endpoints, which never raises. -/
def pyNorm (n : ℕ) (i : ℤ) : ℕ :=
  (min (max (if i < 0 then i + n else i) 0) n).toNat

/-- Length of the Python slice `l[start:stop]` for a sequence of length `n`
(`max 0` is built into ℕ subtraction). -/
def pySliceLen (n : ℕ) (start stop : ℤ) : ℕ :=
  pyNorm n stop - pyNorm n start

/-- The Python slice `l[start:stop]` (basic slicing with step 1). -/
def pySlice (l : List α) (start stop : ℤ) : List α :=
  (l.drop (pyNorm l.length start)).take (pySliceLen l.length start stop)

/-- Python 3 `round()`: round half to even, as applied by the source to the
(exactly represented) rational values appearing in this development. -/
def pyRound (q : ℚ) : ℤ :=
  if q - ⌊q⌋ < 1/2 then ⌊q⌋
  else if 1/2 < q - ⌊q⌋ then ⌊q⌋ + 1
  else if ⌊q⌋ % 2 = 0 then ⌊q⌋ else ⌊q⌋ + 1

/-- Python `int()` applied to a float: truncation toward zero.  This is what
lines 39-40 of the source apply to the origin quotients. -/
def pyInt (q : ℚ) : ℤ := if 0 ≤ q then ⌊q⌋ else ⌈q⌉

/-- Python `range(start, stop, step)` for a positive `step`: the list
`start, start+step, …` of all values below `stop`. -/
def rangeStep (start stop step : ℤ) : List ℤ :=
  (List.range (((stop - start).toNat + step.toNat - 1) / step.toNat)).map
    fun i : ℕ => start + step * (i : ℤ)

/-- Model of `np.arange(0, stop, step)` for positive `stop` and `step`: the
`⌈stop/step⌉` values `0, step, 2·step, …`, all below `stop`. -/
def arangeQ (stop step : ℚ) : List ℚ :=
  (List.range ⌈stop / step⌉.toNat).map fun i : ℕ => (i : ℚ) * step

/-- Exact value of the IEEE-754 double `math.pi`. -/
def piFloat : ℚ := 884279719003555 / 2 ^ 48

/-- Exact value of the IEEE-754 double `2 * math.pi`, the exclusive upper
bound of the angle sweep on line 112 of the source. -/
def twoPi : ℚ := 2 * piFloat

/-- Model of the `math.cos` / `math.sin` library routines: an arbitrary pair
of real-valued (here rational-valued) functions whose results are bounded by
1 in magnitude, which is the only property of the float routines the
theorems use. -/
structure Trig where
  cos : ℚ → ℚ
  sin : ℚ → ℚ
  cos_bound : ∀ a : ℚ, |cos a| ≤ 1
  sin_bound : ∀ a : ℚ, |sin a| ≤ 1

/-- The engine state built by `FreePointFinder.__init__`: the normalized
occupancy buffer plus the derived scalar parameters, exactly the `self._*`
attributes of the Python class. -/
structure Engine where
  mapImage : List (List ℕ)
  freeThresh : ℤ
  resolution : ℚ
  originXPx : ℤ
  originYPx : ℤ
  robotRadiusPx : ℤ
  robotAreaShape : ℤ × ℤ
  maxDistancePx : ℤ
  distanceIncrementPx : ℤ
  angleIncrementRad : ℚ
deriving DecidableEq

/-- Number of columns of the buffer, i.e. `shape[1]` of the numpy array
(all rows of a decoded image have this common length). -/
def imgCols (img : List (List ℕ)) : ℕ := (img.headD []).length

/-- Shape of the numpy sub-array extracted on lines 91-94 of the source:
`self._map_image[y-r:y+r, x-r:x+r].shape`, computed from the buffer
dimensions by Python slice normalization. -/
def extractedShape (e : Engine) (x y : ℤ) : ℤ × ℤ :=
  ((pySliceLen e.mapImage.length (y - e.robotRadiusPx) (y + e.robotRadiusPx) : ℤ),
   (pySliceLen (imgCols e.mapImage) (x - e.robotRadiusPx) (x + e.robotRadiusPx) : ℤ))

/-- Embedding of `_is_free_px` (lines 81-97): extract the footprint
sub-array; if its shape differs from `self._robot_area_shape` the point is
not free, otherwise it is free iff every cell is below `self._free_thresh`. -/
def isFreePx (e : Engine) (x y : ℤ) : Bool :=
  let r := e.robotRadiusPx
  let area := (pySlice e.mapImage (y - r) (y + r)).map fun row => pySlice row (x - r) (x + r)
  if extractedShape e x y ≠ e.robotAreaShape then false
  else area.all fun row => row.all fun v => decide ((v : ℤ) < e.freeThresh)

/-- Embedding of `_m_to_px` (lines 49-63). -/
def m_to_px (e : Engine) (xm ym : ℚ) : ℤ × ℤ :=
  (pyRound (xm / e.resolution) + e.originXPx,
   -pyRound (ym / e.resolution) + e.originYPx)

/-- Embedding of `_px_to_m` (lines 65-79). -/
def px_to_m (e : Engine) (xpx ypx : ℤ) : ℚ × ℚ :=
  (((xpx : ℚ) - e.originXPx) * e.resolution,
   -(((ypx : ℚ) - e.originYPx)) * e.resolution)

/-- The x-coordinate of a spiral-scan candidate (line 113):
`round(x_px + r_px * math.cos(a_rad))`. -/
def candX (t : Trig) (x r : ℤ) (a : ℚ) : ℤ := pyRound ((x : ℚ) + (r : ℚ) * t.cos a)

/-- The y-coordinate of a spiral-scan candidate (line 114):
`round(y_px + r_px * math.sin(a_rad))`. -/
def candY (t : Trig) (y r : ℤ) (a : ℚ) : ℤ := pyRound ((y : ℚ) + (r : ℚ) * t.sin a)

/-- The radii visited by the outer loop on line 111:
`range(1, self._max_distance_px + 1, self._distance_increment_px)`. -/
def radii (e : Engine) : List ℤ :=
  rangeStep 1 (e.maxDistancePx + 1) e.distanceIncrementPx

/-- The angles visited by the inner loop on line 112:
`np.arange(0, 2 * math.pi, self._angle_increment_rad)`. -/
def angles (e : Engine) : List ℚ := arangeQ twoPi e.angleIncrementRad

/-- Embedding of `_closest_free_point_px` (lines 99-117): return the query
itself if free, otherwise the first free spiral candidate in radius-major,
angle-ascending order (`findSome?` models the early `return`), and the pair
`(None, None)` when the scan is exhausted. -/
def closest_free_point_px (t : Trig) (e : Engine) (x y : ℤ) : Option ℤ × Option ℤ :=
  if isFreePx e x y then (some x, some y)
  else
    match (radii e).findSome? (fun r => (angles e).findSome? (fun a =>
        if isFreePx e (candX t x r a) (candY t y r a) then
          some (candX t x r a, candY t y r a)
        else none)) with
    | some c => (some c.1, some c.2)
    | none => (none, none)

/-- Embedding of `is_free` (lines 119-129). -/
def is_free (e : Engine) (xm ym : ℚ) : Bool :=
  isFreePx e (m_to_px e xm ym).1 (m_to_px e xm ym).2

/-- Embedding of `closest_free_point` (lines 131-144): run the grid search at
the converted point; `(None, None)` propagates, a found pixel is converted
back to meters.  (The grid search only ever produces both-`none` or
both-`some`; the impossible mixed cases are sent to `(none, none)`.) -/
def closest_free_point (t : Trig) (e : Engine) (xm ym : ℚ) : Option ℚ × Option ℚ :=
  match closest_free_point_px t e (m_to_px e xm ym).1 (m_to_px e xm ym).2 with
  | (some xf, some yf) =>
      ((px_to_m e xf yf).1, (px_to_m e xf yf).2)
  | _ => (none, none)

/-- The decoded-image inputs of `__init__` that the core consumes: the fields
of the YAML map descriptor, with the image reference replaced by the decoded
grayscale buffer it stands for (decoding is an external collaborator). -/
structure MapData where
  resolution : ℚ
  originX : ℚ
  originY : ℚ
  originYaw : ℚ
  negate : Bool
  freeThresh : ℚ
deriving DecidableEq

/-- Failure modes of `__init__`. -/
inductive PyError where
  /-- `Exception('Non-zero origin yaw is not supported.')`, line 30. -/
  | unsupportedMapError
  /-- `AttributeError`: line 46 evaluates `math.max`, which does not exist
  in Python's `math` module. -/
  | attributeError
deriving DecidableEq

/-- Occupancy-buffer normalization (lines 35-36): pixels are inverted unless
`negate` is set. -/
def normalizeImage (negate : Bool) (img : List (List ℕ)) : List (List ℕ) :=
  if negate then img else img.map fun row => row.map fun v => 255 - v

/-- Line 39: `self._origin_x_px = -int(origin_x / resolution)`. -/
def originXPxOf (originX res : ℚ) : ℤ := -(pyInt (originX / res))

/-- Line 40: `self._origin_y_px = image_height + int(origin_y / resolution)`. -/
def originYPxOf (height : ℕ) (originY res : ℚ) : ℤ :=
  (height : ℤ) + pyInt (originY / res)

/-- Embedding of `FreePointFinder.__init__` (lines 9-47).  The yaw check
comes first; the `distance_increment_m is None` test selects between the
constant 1 and the `math.max(...)` expression, whose evaluation raises
`AttributeError` because `math.max` does not exist, so construction fails
whenever `distance_increment_m` is given. -/
def construct (md : MapData) (rawImage : List (List ℕ))
    (robotRadiusM maxDistanceM : ℚ) (distanceIncrementM : Option ℚ)
    (angleIncrementDeg : ℚ) : Except PyError Engine :=
  if md.originYaw ≠ 0 then .error .unsupportedMapError
  else
    let img := normalizeImage md.negate rawImage
    let rr := ⌈robotRadiusM / md.resolution⌉
    match distanceIncrementM with
    | some _ => .error .attributeError
    | none =>
        .ok {
          mapImage := img
          freeThresh := ⌈md.freeThresh * 255⌉
          resolution := md.resolution
          originXPx := originXPxOf md.originX md.resolution
          originYPx := originYPxOf img.length md.originY md.resolution
          robotRadiusPx := rr
          robotAreaShape := (rr * 2, rr * 2)
          maxDistancePx := ⌈maxDistanceM / md.resolution⌉
          distanceIncrementPx := 1
          angleIncrementRad := angleIncrementDeg * piFloat / 180 }

/-! ### Spec-side definitions for refinement claims -/

/-- Origin formula as the spec's claim C3 words it: `-round(origin_x_m / resolution)`. -/
def originXPxSpecRound (originX res : ℚ) : ℤ := -(pyRound (originX / res))

/-- Origin formula as the spec's claim C3 words it:
`image_height + round(origin_y_m / resolution)`. -/
def originYPxSpecRound (height : ℕ) (originY res : ℚ) : ℤ :=
  (height : ℤ) + pyRound (originY / res)

/-- Truncation toward zero, written independently of `pyInt` as T-division of
the numerator by the denominator; used to state the amended claim C3. -/
def truncTowardZero (q : ℚ) : ℤ := q.num.tdiv q.den

/-! ### Helper lemmas -/

theorem abs_pyRound_sub_le (q : ℚ) : |(pyRound q : ℚ) - q| ≤ 1/2 := by
  have h1 : (⌊q⌋ : ℚ) ≤ q := Int.floor_le q
  have h2 : q < ⌊q⌋ + 1 := Int.lt_floor_add_one q
  unfold pyRound
  split_ifs with hf hg hp <;> rw [abs_le] <;> push_cast <;> constructor <;> linarith

theorem roundtrip_scalar (res : ℚ) (hres : 0 < res) (u : ℚ) :
    |(pyRound (u / res) : ℚ) * res - u| ≤ res / 2 := by
  have hne : res ≠ 0 := ne_of_gt hres
  have hu : u / res * res = u := div_mul_cancel₀ u hne
  calc |(pyRound (u / res) : ℚ) * res - u|
      = |((pyRound (u / res) : ℚ) - u / res) * res| := by rw [sub_mul, hu]
    _ = |(pyRound (u / res) : ℚ) - u / res| * res := by rw [abs_mul, abs_of_pos hres]
    _ ≤ 1/2 * res := mul_le_mul_of_nonneg_right (abs_pyRound_sub_le _) (le_of_lt hres)
    _ = res / 2 := by ring

theorem pyInt_eq_truncTowardZero (q : ℚ) : pyInt q = truncTowardZero q := by
  unfold pyInt truncTowardZero
  have hden : (0 : ℤ) ≤ (q.den : ℤ) := Int.natCast_nonneg q.den
  split_ifs with h
  · have hnum : 0 ≤ q.num := Rat.num_nonneg.mpr h
    rw [Int.tdiv_eq_ediv hnum hden, Rat.floor_def]
  · have hnum : q.num < 0 := Rat.num_neg.mpr (lt_of_not_le h)
    have hstep : q.num.tdiv q.den = -((-q.num).tdiv q.den) := by
      rw [Int.neg_tdiv, neg_neg]
    rw [hstep, Int.tdiv_eq_ediv (by omega) hden]
    rw [show ⌈q⌉ = -⌊-q⌋ by rw [Int.floor_neg, neg_neg], Rat.floor_def, Rat.neg_num, Rat.neg_den]

theorem normalizeImage_length (negate : Bool) (img : List (List ℕ)) :
    (normalizeImage negate img).length = img.length := by
  unfold normalizeImage
  split <;> simp

/-! ### Concrete instances used by witnesses and counterexamples -/

/-- A concrete model of `math.cos`/`math.sin`: correct at angle 0 (the only
angle the concrete engines below visit), bounded by 1 everywhere. -/
def trigFlat : Trig :=
  ⟨fun _ => 1, fun _ => 0, fun _ => by norm_num, fun _ => by norm_num⟩

/-- Map descriptor with `origin_x / resolution = 8/5`, whose truncation (1)
and rounding (2) differ. -/
def mdC3 : MapData :=
  { resolution := 1, originX := 8/5, originY := 0, originYaw := 0,
    negate := true, freeThresh := 0 }

/-- A 2×1 decoded image. -/
def rawC3 : List (List ℕ) := [[7], [7]]

/-- The engine `construct mdC3 rawC3 1 1 none 180` produces. -/
def engC3 : Engine :=
  { mapImage := [[7], [7]], freeThresh := 0, resolution := 1,
    originXPx := -1, originYPx := 2, robotRadiusPx := 1, robotAreaShape := (2, 2),
    maxDistancePx := 1, distanceIncrementPx := 1, angleIncrementRad := piFloat }

instance : DecidableEq (Except PyError Engine) := fun a b =>
  match a, b with
  | .error x, .error y =>
      if h : x = y then .isTrue (by rw [h]) else .isFalse (fun hh => h (by cases hh; rfl))
  | .ok x, .ok y =>
      if h : x = y then .isTrue (by rw [h]) else .isFalse (fun hh => h (by cases hh; rfl))
  | .error _, .ok _ => .isFalse (fun hh => nomatch hh)
  | .ok _, .error _ => .isFalse (fun hh => nomatch hh)

unseal Rat.mul Rat.inv Rat.add Rat.sub in
theorem construct_mdC3 : construct mdC3 rawC3 1 1 none 180 = .ok engC3 := by decide

/-! ### Claim C6 -/

/-- Claim C6: construction fails with the unsupported-map error when the map
descriptor's origin yaw is non-zero; the failure is the whole result of
construction (an `Except.error`, so no partial engine exists). -/
theorem construct_yaw_error (md : MapData) (raw : List (List ℕ))
    (rr maxd : ℚ) (dinc : Option ℚ) (adeg : ℚ) (h : md.originYaw ≠ 0) :
    construct md raw rr maxd dinc adeg = .error .unsupportedMapError := by
  unfold construct
  rw [if_pos h]

/-- Witness for C6 at a concrete descriptor with yaw 1. -/
theorem construct_yaw_error_witness :
    (MapData.mk 1 0 0 1 false 0).originYaw ≠ 0 ∧
      construct (MapData.mk 1 0 0 1 false 0) [[0]] (3/10) 15 none 2
        = .error .unsupportedMapError :=
  ⟨by norm_num [MapData.originYaw], construct_yaw_error _ _ _ _ _ _ (by norm_num [MapData.originYaw])⟩

/-! ### Claim C3 -/

/-- Counterexample to claim C3 as stated: at `origin_x_m = 8/5`,
`resolution = 1`, construction succeeds, but the engine's `origin_x_px` is
`-int(8/5) = -1`, not `-round(8/5) = -2`: line 39 of the source truncates
with `int()`, it does not round. -/
theorem origin_round_cex :
    construct mdC3 rawC3 1 1 none 180 = .ok engC3 ∧
      engC3.originXPx ≠ originXPxSpecRound mdC3.originX mdC3.resolution := by
  refine ⟨construct_mdC3, ?_⟩
  show (-1 : ℤ) ≠ originXPxSpecRound (8/5) 1
  unfold originXPxSpecRound pyRound
  norm_num

/-- Claim C3 as amended: at construction the grid-space origin is
`origin_x_px = -trunc(origin_x_m / resolution)` and
`origin_y_px = image_height + trunc(origin_y_m / resolution)`, where `trunc`
is truncation toward zero (Python `int()`), and the second formula uses the
raw, non-negated sign of `origin_y`. -/
theorem origin_trunc_formula (md : MapData) (raw : List (List ℕ))
    (rr maxd adeg : ℚ) (e : Engine)
    (h : construct md raw rr maxd none adeg = .ok e) :
    e.originXPx = -(truncTowardZero (md.originX / md.resolution)) ∧
      e.originYPx = (raw.length : ℤ) + truncTowardZero (md.originY / md.resolution) := by
  unfold construct at h
  split at h
  · exact absurd h (by simp)
  · rw [Except.ok.injEq] at h
    subst h
    constructor
    · show originXPxOf md.originX md.resolution = _
      unfold originXPxOf
      rw [pyInt_eq_truncTowardZero]
    · show originYPxOf (normalizeImage md.negate raw).length md.originY md.resolution = _
      unfold originYPxOf
      rw [pyInt_eq_truncTowardZero, normalizeImage_length]

/-- Witness for the amended C3 at the concrete constructed engine `engC3`. -/
theorem origin_trunc_formula_witness :
    construct mdC3 rawC3 1 1 none 180 = .ok engC3 ∧
      (engC3.originXPx = -(truncTowardZero (mdC3.originX / mdC3.resolution)) ∧
        engC3.originYPx = ((rawC3.length : ℤ) + truncTowardZero (mdC3.originY / mdC3.resolution))) :=
  ⟨construct_mdC3, origin_trunc_formula mdC3 rawC3 1 1 180 engC3 construct_mdC3⟩

/-! ### Claim C4 -/

/-- Claim C4 is half right about intent but the code fails: whenever
`distance_increment_m` is passed, line 46 evaluates `math.max`, which does
not exist in Python's `math` module, so construction raises
`AttributeError` instead of computing `max(1, floor(increment/resolution))`.
This theorem evaluates the embedded constructor at such a failing input
(`distance_increment_m = 1/2`, an otherwise valid map). -/
theorem construct_distance_increment_attribute_error :
    construct mdC3 rawC3 1 1 (some (1/2)) 180 = .error .attributeError := by
  unfold construct
  norm_num [mdC3]

/-! ### Claim C7 -/

/-- Claim C7: for every world point, each coordinate of
`grid_to_world(world_to_grid(p))` differs from the corresponding coordinate
of `p` by at most `resolution / 2`. -/
theorem round_trip_bound (e : Engine) (xm ym : ℚ) (hres : 0 < e.resolution) :
    |(px_to_m e (m_to_px e xm ym).1 (m_to_px e xm ym).2).1 - xm| ≤ e.resolution / 2 ∧
      |(px_to_m e (m_to_px e xm ym).1 (m_to_px e xm ym).2).2 - ym| ≤ e.resolution / 2 := by
  unfold px_to_m m_to_px
  constructor
  · have h : ((((pyRound (xm / e.resolution) + e.originXPx : ℤ) : ℚ) - e.originXPx)
        * e.resolution - xm)
        = (pyRound (xm / e.resolution) : ℚ) * e.resolution - xm := by push_cast; ring
    rw [h]
    exact roundtrip_scalar e.resolution hres xm
  · have h : ((-(((-pyRound (ym / e.resolution) + e.originYPx : ℤ) : ℚ) - e.originYPx))
        * e.resolution - ym)
        = (pyRound (ym / e.resolution) : ℚ) * e.resolution - ym := by push_cast; ring
    rw [h]
    exact roundtrip_scalar e.resolution hres ym

/-- Witness for C7 at `resolution = 1`, point `(3/2, -1/3)`. -/
theorem round_trip_bound_witness :
    (0 : ℚ) < engC3.resolution ∧
      (|(px_to_m engC3 (m_to_px engC3 (3/2) (-1/3)).1 (m_to_px engC3 (3/2) (-1/3)).2).1 - 3/2|
          ≤ engC3.resolution / 2 ∧
        |(px_to_m engC3 (m_to_px engC3 (3/2) (-1/3)).1 (m_to_px engC3 (3/2) (-1/3)).2).2 - (-1/3)|
          ≤ engC3.resolution / 2) :=
  ⟨by norm_num [engC3], round_trip_bound engC3 (3/2) (-1/3) (by norm_num [engC3])⟩

/-- A 10×10 all-free occupancy buffer with robot radius 2. -/
def engA : Engine :=
  { mapImage := List.replicate 10 (List.replicate 10 0), freeThresh := 1, resolution := 1,
    originXPx := 0, originYPx := 10, robotRadiusPx := 2, robotAreaShape := (4, 4),
    maxDistancePx := 2, distanceIncrementPx := 1, angleIncrementRad := twoPi }

/-! ### Claim C2 -/

/-- Claim C2 is the intended contract, but the code violates it: at center
`(-3, -3)` with radius 2 on a 10×10 buffer, the footprint `[-5, -1) × [-5, -1)`
lies entirely outside the buffer, yet Python's negative slice indices wrap
around (`[-5:-1]` reads rows 5..8), the extracted shape matches
`robot_area_shape`, and `_is_free_px` returns `True`.  The claim (and the
spec) say any footprint not fully inside the buffer is not free. -/
theorem is_free_out_of_bounds_bug :
    ((-3 : ℤ) + engA.robotRadiusPx ≤ 0 ∧ isFreePx engA (-3) (-3) = true) := by decide

/-! ### Claim C10 -/

/-- Counterexample to claim C10 as stated: its parenthetical asserts the
extracted shape differs from `robot_area_shape` for *every* negative-start
slice, but at `(-3, -3)` on a 10×10 buffer with radius 2 the slice starts at
the negative index `-5`, wraps around, and the extracted shape equals
`robot_area_shape` (so the predicate does not return false there). -/
theorem negative_start_shape_match_cex :
    ((-3 : ℤ) - engA.robotRadiusPx < 0
      ∧ extractedShape engA (-3) (-3) = engA.robotAreaShape
      ∧ isFreePx engA (-3) (-3) ≠ false) := by decide

/-- Claim C10 as amended: the free-space predicate is a total boolean
function (numpy basic slicing never raises, which the embedding reflects),
and whenever the extracted footprint shape differs from `robot_area_shape`
the predicate returns false rather than an indexing error — but the shape
can coincide for a footprint lying wholly in negative coordinates, because
negative slice indices wrap around. -/
theorem shape_mismatch_not_free (e : Engine) (x y : ℤ)
    (h : extractedShape e x y ≠ e.robotAreaShape) : isFreePx e x y = false := by
  simp only [isFreePx]
  rw [if_pos h]

/-- Witness for the amended C10: at `(100, 0)` the slice is clipped, the
shape does not match, and the predicate returns false. -/
theorem shape_mismatch_not_free_witness :
    extractedShape engA 100 0 ≠ engA.robotAreaShape ∧ isFreePx engA 100 0 = false :=
  ⟨by decide, shape_mismatch_not_free engA 100 0 (by decide)⟩

/-! ### Claim C5 -/

/-- A 1×1 buffer on which no footprint of radius 1 ever fits, so no point is
free anywhere. -/
def engC : Engine :=
  { mapImage := [[5]], freeThresh := 1, resolution := 1, originXPx := 0, originYPx := 1,
    robotRadiusPx := 1, robotAreaShape := (2, 2), maxDistancePx := 2,
    distanceIncrementPx := 1, angleIncrementRad := twoPi }

unseal Rat.mul Rat.inv Rat.add Rat.sub in
/-- Counterexample to claim C5 as stated: when the grid search fails,
`closest_free_point` returns literally the pair of nulls `(None, None)`
(the Python docstring says so too) — there is no distinct `NotFound` value;
the claim's "not a pair of nulls" is false. -/
theorem notfound_is_pair_of_nulls_cex :
    closest_free_point_px trigFlat engC (m_to_px engC 0 0).1 (m_to_px engC 0 0).2 = (none, none)
      ∧ closest_free_point trigFlat engC 0 0 = (none, none) := by decide

/-- Claim C5 as amended: when the queried grid point and every spiral
candidate are not free, the grid-space search returns the sentinel pair
`(None, None)` without throwing, and the world-space `closest_free_point`
likewise returns `(None, None)` whenever the grid search fails. -/
theorem closest_free_not_found (t : Trig) (e : Engine) (x y : ℤ) (xm ym : ℚ)
    (hq : isFreePx e x y = false)
    (hcand : ∀ r ∈ radii e, ∀ a ∈ angles e,
      isFreePx e (candX t x r a) (candY t y r a) = false) :
    closest_free_point_px t e x y = (none, none)
      ∧ (closest_free_point_px t e (m_to_px e xm ym).1 (m_to_px e xm ym).2 = (none, none)
          → closest_free_point t e xm ym = (none, none)) := by
  constructor
  · unfold closest_free_point_px
    rw [if_neg (by simp [hq])]
    have hnone : (radii e).findSome? (fun r => (angles e).findSome? (fun a =>
        if isFreePx e (candX t x r a) (candY t y r a) then
          some (candX t x r a, candY t y r a)
        else none)) = none := by
      rw [List.findSome?_eq_none_iff]
      intro r hr
      rw [List.findSome?_eq_none_iff]
      intro a ha
      rw [if_neg (by simp [hcand r hr a ha])]
    rw [hnone]
  · intro h
    unfold closest_free_point
    rw [h]

unseal Rat.mul Rat.inv Rat.add Rat.sub in
/-- Witness for the amended C5 on the all-occupied 1×1 map `engC`. -/
theorem closest_free_not_found_witness :
    closest_free_point_px trigFlat engC 0 1 = (none, none)
      ∧ (closest_free_point_px trigFlat engC (m_to_px engC 0 0).1 (m_to_px engC 0 0).2
            = (none, none)
          → closest_free_point trigFlat engC 0 0 = (none, none)) :=
  closest_free_not_found trigFlat engC 0 1 0 0 (by decide) (by decide)

/-! ### Claim C1 -/

/-- First free candidate of the flattened radius-major, angle-ascending
candidate stream over a given radius list, as the spec's search description
words it ("the first candidate … that satisfies the Free-Space Predicate"). -/
def firstFreeCandidate (t : Trig) (e : Engine) (x y : ℤ) (rs : List ℤ) : Option (ℤ × ℤ) :=
  (rs.flatMap fun r => (angles e).map fun a => (candX t x r a, candY t y r a)).find?
    fun c => isFreePx e c.1 c.2

/-- The nearest-free search as a claim describes it: the query itself when
free, otherwise the first free candidate over the given radius list,
otherwise the null pair. -/
def searchSpec (t : Trig) (e : Engine) (x y : ℤ) (rs : List ℤ) : Option ℤ × Option ℤ :=
  if isFreePx e x y then (some x, some y)
  else
    match firstFreeCandidate t e x y rs with
    | some c => (some c.1, some c.2)
    | none => (none, none)

/-- The radius sequence claim C1 asserts: from `distance_increment_px` up to
`max_distance_px` inclusive, stepping by `distance_increment_px`. -/
def claimedRadii (e : Engine) : List ℤ :=
  rangeStep e.distanceIncrementPx (e.maxDistancePx + 1) e.distanceIncrementPx

/-- A 10×10 buffer, free everywhere except one obstacle at row 4, col 4,
with radius 1, `max_distance_px = 2` and `distance_increment_px = 2`. -/
def engB : Engine :=
  { mapImage := [List.replicate 10 0, List.replicate 10 0, List.replicate 10 0,
      List.replicate 10 0, [0, 0, 0, 0, 9, 0, 0, 0, 0, 0], List.replicate 10 0,
      List.replicate 10 0, List.replicate 10 0, List.replicate 10 0, List.replicate 10 0],
    freeThresh := 5, resolution := 1, originXPx := 0, originYPx := 10,
    robotRadiusPx := 1, robotAreaShape := (2, 2), maxDistancePx := 2,
    distanceIncrementPx := 2, angleIncrementRad := twoPi }

unseal Rat.mul Rat.inv Rat.add Rat.sub in
/-- Counterexample to claim C1 as stated: the outer loop of the source is
`range(1, max_distance_px + 1, distance_increment_px)` — it starts at radius
1, not at `distance_increment_px`.  On `engB` (`distance_increment_px = 2`,
`max_distance_px = 2`) the code scans radius 1 only and finds nothing, while
the claimed radii `2, 4, …` would find the free point `(6, 4)`; this holds
for any trig model that is exact at angle 0, as `math.cos`/`math.sin` are. -/
theorem spiral_radii_cex :
    ¬ ∀ (t : Trig) (e : Engine) (x y : ℤ), t.cos 0 = 1 → t.sin 0 = 0 →
        isFreePx e x y = false →
        closest_free_point_px t e x y = searchSpec t e x y (claimedRadii e) := by
  intro h
  have hc := h trigFlat engB 4 4 rfl rfl (by decide)
  exact absurd hc (by decide)

theorem findSome?_guard_eq_find?_map (p : α → Bool) (f : β → α) (l : List β) :
    (l.findSome? fun b => if p (f b) then some (f b) else none)
      = (l.map f).find? p := by
  induction l with
  | nil => rfl
  | cons b l ih =>
    rw [List.map_cons, List.findSome?_cons, List.find?_cons]
    by_cases h : p (f b) <;> simp [h, ih]

theorem nested_loop_eq_flat_find (t : Trig) (e : Engine) (x y : ℤ) (rs : List ℤ) :
    (rs.findSome? fun r => (angles e).findSome? fun a =>
        if isFreePx e (candX t x r a) (candY t y r a) then
          some (candX t x r a, candY t y r a)
        else none)
      = firstFreeCandidate t e x y rs := by
  unfold firstFreeCandidate
  rw [List.find?_flatMap]
  congr 1
  funext r
  have hg := findSome?_guard_eq_find?_map (fun c => isFreePx e c.1 c.2)
    (fun a => (candX t x r a, candY t y r a)) (angles e)
  simp only at hg
  exact hg

/-- Claim C1 as amended: when the queried grid point is not itself free, the
spiral scan visits radii `1, 1 + inc, 1 + 2·inc, …` up to `max_distance_px`
inclusive (Python's `range(1, max_distance_px + 1, inc)` with
`inc = distance_increment_px`), sweeps angles from 0 inclusive to 2π
exclusive stepping by `angle_increment_rad`, forms each candidate as
`(round(x + r·cos a), round(y + r·sin a))`, and returns the first candidate
in radius-major, then angle-ascending order satisfying the free-space
predicate (the equation below also covers the radius-0 early return). -/
theorem spiral_scan_order (t : Trig) (e : Engine) (x y : ℤ) :
    closest_free_point_px t e x y = searchSpec t e x y (radii e) := by
  unfold closest_free_point_px searchSpec
  rw [nested_loop_eq_flat_find]

/-! ### Claim C8 -/

theorem rangeStep_mem_bounds {a b s r : ℤ} (hs : 0 < s) (hr : r ∈ rangeStep a b s) :
    a ≤ r ∧ r < b := by
  unfold rangeStep at hr
  obtain ⟨i, hi, rfl⟩ := List.mem_map.mp hr
  rw [List.mem_range] at hi
  have hs' : s = (s.toNat : ℤ) := (Int.toNat_of_nonneg (le_of_lt hs)).symm
  constructor
  · have : 0 ≤ s * (i : ℤ) := mul_nonneg (le_of_lt hs) (Int.natCast_nonneg i)
    omega
  · set n := (b - a).toNat with hn
    set σ := s.toNat with hσ
    have hσ1 : 1 ≤ σ := by omega
    have h1 : σ * (i + 1) ≤ σ * ((n + σ - 1) / σ) := Nat.mul_le_mul_left σ hi
    have h2 : σ * ((n + σ - 1) / σ) ≤ n + σ - 1 := by
      rw [mul_comm]
      exact Nat.div_mul_le_self (n + σ - 1) σ
    have h3 : σ * i + σ = σ * (i + 1) := by ring
    have h4 : (s * (i : ℤ)) = ((σ * i : ℕ) : ℤ) := by
      rw [hs']
      push_cast
      ring
    omega

theorem candX_sub_abs_le (t : Trig) (x r : ℤ) (a : ℚ) (h0 : 0 ≤ r) :
    |candX t x r a - x| ≤ r := by
  have hw : |(pyRound ((x : ℚ) + (r : ℚ) * t.cos a) : ℚ) - ((x : ℚ) + (r : ℚ) * t.cos a)|
      ≤ 1/2 := abs_pyRound_sub_le _
  have hc : |(r : ℚ) * t.cos a| ≤ (r : ℚ) := by
    rw [abs_mul, abs_of_nonneg (by exact_mod_cast h0 : (0:ℚ) ≤ (r:ℚ))]
    calc (r : ℚ) * |t.cos a| ≤ (r : ℚ) * 1 :=
          mul_le_mul_of_nonneg_left (t.cos_bound a) (by exact_mod_cast h0)
      _ = (r : ℚ) := mul_one _
  have hq : |((candX t x r a - x : ℤ) : ℚ)| ≤ (r : ℚ) + 1/2 := by
    unfold candX
    push_cast
    calc |((pyRound ((x : ℚ) + (r : ℚ) * t.cos a) : ℚ)) - (x : ℚ)|
        = |((pyRound ((x : ℚ) + (r : ℚ) * t.cos a) : ℚ) - ((x : ℚ) + (r : ℚ) * t.cos a))
            + (r : ℚ) * t.cos a| := by ring_nf
      _ ≤ |(pyRound ((x : ℚ) + (r : ℚ) * t.cos a) : ℚ) - ((x : ℚ) + (r : ℚ) * t.cos a)|
            + |(r : ℚ) * t.cos a| := abs_add _ _
      _ ≤ 1/2 + (r : ℚ) := add_le_add hw hc
      _ = (r : ℚ) + 1/2 := by ring
  by_contra hgt
  push_neg at hgt
  have : (r : ℚ) + 1 ≤ |((candX t x r a - x : ℤ) : ℚ)| := by
    rw [← Int.cast_abs]
    exact_mod_cast hgt
  linarith

theorem candY_sub_abs_le (t : Trig) (y r : ℤ) (a : ℚ) (h0 : 0 ≤ r) :
    |candY t y r a - y| ≤ r := by
  have hw : |(pyRound ((y : ℚ) + (r : ℚ) * t.sin a) : ℚ) - ((y : ℚ) + (r : ℚ) * t.sin a)|
      ≤ 1/2 := abs_pyRound_sub_le _
  have hc : |(r : ℚ) * t.sin a| ≤ (r : ℚ) := by
    rw [abs_mul, abs_of_nonneg (by exact_mod_cast h0 : (0:ℚ) ≤ (r:ℚ))]
    calc (r : ℚ) * |t.sin a| ≤ (r : ℚ) * 1 :=
          mul_le_mul_of_nonneg_left (t.sin_bound a) (by exact_mod_cast h0)
      _ = (r : ℚ) := mul_one _
  have hq : |((candY t y r a - y : ℤ) : ℚ)| ≤ (r : ℚ) + 1/2 := by
    unfold candY
    push_cast
    calc |((pyRound ((y : ℚ) + (r : ℚ) * t.sin a) : ℚ)) - (y : ℚ)|
        = |((pyRound ((y : ℚ) + (r : ℚ) * t.sin a) : ℚ) - ((y : ℚ) + (r : ℚ) * t.sin a))
            + (r : ℚ) * t.sin a| := by ring_nf
      _ ≤ |(pyRound ((y : ℚ) + (r : ℚ) * t.sin a) : ℚ) - ((y : ℚ) + (r : ℚ) * t.sin a)|
            + |(r : ℚ) * t.sin a| := abs_add _ _
      _ ≤ 1/2 + (r : ℚ) := add_le_add hw hc
      _ = (r : ℚ) + 1/2 := by ring
  by_contra hgt
  push_neg at hgt
  have : (r : ℚ) + 1 ≤ |((candY t y r a - y : ℤ) : ℚ)| := by
    rw [← Int.cast_abs]
    exact_mod_cast hgt
  linarith

/-- No grid point within Chebyshev distance `max_distance_px` of `(x, y)` is
free (the formalization of "no free point exists within that radius"). -/
def NoFreeWithin (e : Engine) (x y : ℤ) : Prop :=
  ∀ u v : ℤ, |u - x| ≤ e.maxDistancePx → |v - y| ≤ e.maxDistancePx →
    isFreePx e u v = false

/-- Claim C8: the grid search never returns a point farther (per axis, hence
in grid Chebyshev distance) than `max_distance_px` plus one step increment
from the query — in fact every visited radius is at most `max_distance_px`;
and when no free point exists within that radius the result is the
not-found signal `(none, none)`. -/
theorem closest_free_bounded (t : Trig) (e : Engine) (x y p q : ℤ)
    (hinc : 1 ≤ e.distanceIncrementPx) (hmax : 0 ≤ e.maxDistancePx) :
    (closest_free_point_px t e x y = (some p, some q) →
        |p - x| ≤ e.maxDistancePx + e.distanceIncrementPx
          ∧ |q - y| ≤ e.maxDistancePx + e.distanceIncrementPx)
      ∧ (NoFreeWithin e x y → closest_free_point_px t e x y = (none, none)) := by
  have hs : (0 : ℤ) < e.distanceIncrementPx := by omega
  constructor
  · intro h
    unfold closest_free_point_px at h
    by_cases hf : isFreePx e x y
    · rw [if_pos hf] at h
      simp only [Prod.mk.injEq, Option.some.injEq] at h
      obtain ⟨rfl, rfl⟩ := h
      simp only [sub_self, abs_zero]
      omega
    · rw [if_neg hf] at h
      cases hF : (radii e).findSome? (fun r => (angles e).findSome? (fun a =>
          if isFreePx e (candX t x r a) (candY t y r a) then
            some (candX t x r a, candY t y r a)
          else none)) with
      | none =>
          rw [hF] at h
          simp at h
      | some c =>
          rw [hF] at h
          simp only [Prod.mk.injEq, Option.some.injEq] at h
          obtain ⟨hp, hq⟩ := h
          obtain ⟨r, hr, hinner⟩ := List.exists_of_findSome?_eq_some hF
          obtain ⟨a, ha, hga⟩ := List.exists_of_findSome?_eq_some hinner
          by_cases hfr : isFreePx e (candX t x r a) (candY t y r a)
          · rw [if_pos hfr] at hga
            have hc := Option.some.inj hga
            subst hc
            have hrb := rangeStep_mem_bounds hs hr
            have hx := candX_sub_abs_le t x r a (by omega)
            have hy := candY_sub_abs_le t y r a (by omega)
            rw [← hp, ← hq]
            dsimp only
            exact ⟨by omega, by omega⟩
          · rw [if_neg hfr] at hga
            exact absurd hga (by simp)
  · intro hn
    have hq0 : isFreePx e x y = false :=
      hn x y (by rw [sub_self, abs_zero]; exact hmax) (by rw [sub_self, abs_zero]; exact hmax)
    unfold closest_free_point_px
    rw [if_neg (by simp [hq0])]
    have hnone : (radii e).findSome? (fun r => (angles e).findSome? (fun a =>
        if isFreePx e (candX t x r a) (candY t y r a) then
          some (candX t x r a, candY t y r a)
        else none)) = none := by
      rw [List.findSome?_eq_none_iff]
      intro r hr
      rw [List.findSome?_eq_none_iff]
      intro a ha
      have hrb := rangeStep_mem_bounds hs hr
      have hx := candX_sub_abs_le t x r a (by omega)
      have hy := candY_sub_abs_le t y r a (by omega)
      have hfree := hn (candX t x r a) (candY t y r a) (by omega) (by omega)
      rw [if_neg (by simp [hfree])]
    rw [hnone]

/-- A 4×4 all-free buffer with radius 1, used as the C8 witness engine. -/
def engD : Engine :=
  { mapImage := List.replicate 4 (List.replicate 4 0), freeThresh := 1, resolution := 1,
    originXPx := 0, originYPx := 4, robotRadiusPx := 1, robotAreaShape := (2, 2),
    maxDistancePx := 2, distanceIncrementPx := 1, angleIncrementRad := twoPi }

/-- Witness for C8 on the all-free engine `engD` at the free query `(2, 2)`. -/
theorem closest_free_bounded_witness :
    ((1 : ℤ) ≤ engD.distanceIncrementPx ∧ (0 : ℤ) ≤ engD.maxDistancePx)
      ∧ ((closest_free_point_px trigFlat engD 2 2 = (some 2, some 2) →
            |(2 : ℤ) - 2| ≤ engD.maxDistancePx + engD.distanceIncrementPx
              ∧ |(2 : ℤ) - 2| ≤ engD.maxDistancePx + engD.distanceIncrementPx)
          ∧ (NoFreeWithin engD 2 2 → closest_free_point_px trigFlat engD 2 2 = (none, none))) :=
  ⟨⟨by decide, by decide⟩, closest_free_bounded trigFlat engD 2 2 2 2 (by decide) (by decide)⟩

/-! ### Claim C9 -/

theorem slice_window_mono (n : ℕ) (c r1 r2 : ℤ) (h2 : 0 < r2) (hle : r2 ≤ r1)
    (hm : (pySliceLen n (c - r1) (c + r1) : ℤ) = 2 * r1) :
    pyNorm n (c - r1) ≤ pyNorm n (c - r2)
      ∧ pyNorm n (c - r2) + pySliceLen n (c - r2) (c + r2)
          ≤ pyNorm n (c - r1) + pySliceLen n (c - r1) (c + r1)
      ∧ (pySliceLen n (c - r2) (c + r2) : ℤ) = 2 * r2 := by
  unfold pySliceLen pyNorm at hm ⊢
  split_ifs at hm ⊢ <;> omega

theorem mem_window_of_window (l : List α) (a1 b1 a2 b2 : ℕ)
    (ha : a1 ≤ a2) (hab : a2 + b2 ≤ a1 + b1) {v : α}
    (hv : v ∈ (l.drop a2).take b2) : v ∈ (l.drop a1).take b1 := by
  rw [List.mem_iff_getElem] at hv
  obtain ⟨i, hi, hgi⟩ := hv
  have hlen : i < min b2 (l.length - a2) := by
    simpa [List.length_take, List.length_drop] using hi
  have hiL : a2 + i < l.length := by omega
  rw [List.mem_iff_getElem]
  have hjlen : a2 + i - a1 < ((l.drop a1).take b1).length := by
    simp only [List.length_take, List.length_drop]
    omega
  refine ⟨a2 + i - a1, hjlen, ?_⟩
  rw [← hgi]
  simp only [List.getElem_take, List.getElem_drop]
  congr 1
  omega

theorem mem_of_mem_window (l : List α) (a b : ℕ) {v : α}
    (hv : v ∈ (l.drop a).take b) : v ∈ l :=
  List.mem_of_mem_drop (List.mem_of_mem_take hv)

/-- Claim C9: if the free-space predicate holds at a center for robot radius
`r1`, it holds at the same center for every smaller (nonnegative) radius
`r2 < r1`, for two engines identical except for the radius and its derived
footprint shape, on a rectangular buffer. -/
theorem is_free_radius_mono (e1 e2 : Engine) (x y : ℤ)
    (himg : e2.mapImage = e1.mapImage)
    (hth : e2.freeThresh = e1.freeThresh)
    (hs1 : e1.robotAreaShape = (2 * e1.robotRadiusPx, 2 * e1.robotRadiusPx))
    (hs2 : e2.robotAreaShape = (2 * e2.robotRadiusPx, 2 * e2.robotRadiusPx))
    (hrect : ∀ row ∈ e1.mapImage, row.length = imgCols e1.mapImage)
    (h0 : 0 ≤ e2.robotRadiusPx)
    (hlt : e2.robotRadiusPx < e1.robotRadiusPx)
    (hfree : isFreePx e1 x y = true) :
    isFreePx e2 x y = true := by
  unfold isFreePx at hfree ⊢
  by_cases hsh : extractedShape e1 x y ≠ e1.robotAreaShape
  · rw [if_pos hsh] at hfree
    exact absurd hfree (by simp)
  rw [if_neg hsh] at hfree
  push_neg at hsh
  rw [hs1, extractedShape, Prod.mk.injEq] at hsh
  obtain ⟨hrow1, hcol1⟩ := hsh
  rcases eq_or_lt_of_le h0 with h20 | h2pos
  · -- radius 0: the footprint is empty and always matches its (0,0) shape
    rw [if_neg]
    · rw [List.all_eq_true]
      intro row hrowmem
      rw [List.mem_map] at hrowmem
      obtain ⟨row0, hrow0, rfl⟩ := hrowmem
      exact absurd hrow0 (by
        unfold pySlice pySliceLen
        rw [← h20]
        simp)
    · rw [hs2, extractedShape, ← h20]
      unfold pySliceLen
      simp
  · -- positive smaller radius
    have hrows := slice_window_mono e1.mapImage.length y e1.robotRadiusPx e2.robotRadiusPx
      h2pos (le_of_lt hlt) hrow1
    have hcols := slice_window_mono (imgCols e1.mapImage) x e1.robotRadiusPx e2.robotRadiusPx
      h2pos (le_of_lt hlt) hcol1
    rw [if_neg]
    · rw [List.all_eq_true]
      intro rowslice hrs
      rw [himg, List.mem_map] at hrs
      obtain ⟨row, hrowmem, rfl⟩ := hrs
      have hrowmem1 : row ∈ pySlice e1.mapImage (y - e1.robotRadiusPx) (y + e1.robotRadiusPx) := by
        unfold pySlice at hrowmem ⊢
        exact mem_window_of_window _ _ _ _ _ hrows.1 hrows.2.1 hrowmem
      have hall1 := (List.all_eq_true.mp hfree) _
        (List.mem_map.mpr ⟨row, hrowmem1, rfl⟩)
      have hlen : row.length = imgCols e1.mapImage :=
        hrect row (mem_of_mem_window _ _ _ (by
          unfold pySlice at hrowmem1
          exact hrowmem1))
      rw [List.all_eq_true]
      intro v hv
      have hv1 : v ∈ pySlice row (x - e1.robotRadiusPx) (x + e1.robotRadiusPx) := by
        unfold pySlice at hv ⊢
        rw [hlen] at hv ⊢
        exact mem_window_of_window _ _ _ _ _ hcols.1 hcols.2.1 hv
      have := (List.all_eq_true.mp hall1) v hv1
      rw [hth]
      exact this
    · rw [hs2, extractedShape, himg, not_ne_iff, Prod.mk.injEq]
      exact ⟨hrows.2.2, hcols.2.2⟩

/-- A 6×6 all-free buffer with robot radius 2. -/
def engE1 : Engine :=
  { mapImage := List.replicate 6 (List.replicate 6 0), freeThresh := 1, resolution := 1,
    originXPx := 0, originYPx := 6, robotRadiusPx := 2, robotAreaShape := (4, 4),
    maxDistancePx := 2, distanceIncrementPx := 1, angleIncrementRad := twoPi }

/-- The engine `engE1` with the robot radius shrunk to 1. -/
def engE2 : Engine :=
  { mapImage := List.replicate 6 (List.replicate 6 0), freeThresh := 1, resolution := 1,
    originXPx := 0, originYPx := 6, robotRadiusPx := 1, robotAreaShape := (2, 2),
    maxDistancePx := 2, distanceIncrementPx := 1, angleIncrementRad := twoPi }

/-- Witness for C9: `(3, 3)` is free at radius 2, hence also at radius 1. -/
theorem is_free_radius_mono_witness :
    (engE2.robotRadiusPx < engE1.robotRadiusPx ∧ isFreePx engE1 3 3 = true)
      ∧ isFreePx engE2 3 3 = true :=
  ⟨⟨by decide, by decide⟩,
    is_free_radius_mono engE1 engE2 3 3 (by decide) (by decide) (by decide) (by decide)
      (by decide) (by decide) (by decide) (by decide)⟩

end FPF
